import Mathlib

/-!
Verification of the express-jwt-scope middleware core: the permission grammar,
the wildcard-matching algorithm and the boolean rule-combinator engine.

The JavaScript source is shallowly embedded: JS strings are Lean `String`s,
JS string arrays are `List String`, thrown errors become `Except` error values,
and asynchronous rule functions become state-passing functions (the state type
stands for whatever side effects a user predicate performs; sequential `await`
becomes explicit state threading).
-/

namespace ExpressJwtScope

/-- Model of a JavaScript value, rich enough for the truthiness coercions and
the scope values the middleware handles.  `num` models JS numbers by integers
(floating point and `NaN` play no role in the claims); `obj` stands for any
plain (non-array) object, which is always truthy in JS. -/
inductive JSValue where
  | undefined
  | null
  | bool (b : Bool)
  | num (n : Int)
  | str (s : String)
  | arr (elems : List JSValue)
  | obj

/-- JS truthiness coercion: `undefined`, `null`, `false`, `0` and the empty
string are falsy; every array and object is truthy. -/
def truthy : JSValue → Bool
  | .undefined => false
  | .null => false
  | .bool b => b
  | .num n => n != 0
  | .str s => s != ""
  | .arr _ => true
  | .obj => true

/-- `String.prototype.split` with a single-character separator, on the
character list of the string: `""` yields `[""]`, separators at the ends or
adjacent separators yield empty fields, exactly as in JS. -/
def splitChars (d : Char) : List Char → List (List Char)
  | [] => [[]]
  | c :: rest =>
    if c = d then [] :: splitChars d rest
    else
      match splitChars d rest with
      | [] => [[c]]
      | p :: ps => (c :: p) :: ps

/-- JS `s.split(d)` for a single-character delimiter `d`. -/
def jsSplit (d : Char) (s : String) : List String :=
  (splitChars d s.data).map String.mk

/-- The claim charset `[a-zA-Z0-9_]` of `moduleArgv` (`src/utils.js`): ASCII
letters, digits and underscore. -/
def charsetChar (c : Char) : Bool :=
  c.isAlpha || c.isDigit || c = '_'

/-- One non-empty run of charset characters (`<charset>+`). -/
def charsetRun (s : String) : Bool :=
  s != "" && s.data.all charsetChar

/-- The requested-side regular expression
`^<charset>+(<delim><charset>+)*$` of `factoryArgv` (`src/utils.js`), encoded
through `jsSplit`: the string matches iff every delimiter-separated field is a
non-empty charset run.  The encodings agree because `moduleArgv` only ever
supplies a punctuation delimiter, which is outside the charset. -/
def requestedClaimRegexTest (d : Char) (s : String) : Bool :=
  (jsSplit d s).all charsetRun

/-- One granted-side qualifier field: a charset run or the literal `*`. -/
def grantedSegment (s : String) : Bool :=
  charsetRun s || s == "*"

/-- The granted-side regular expression
`^<charset>+(<delim>(<charset>+|\*))*$` of `parseGrantedScope`
(`src/utils.js`), encoded through `jsSplit`: the first field must be a charset
run (the permission name is never `*`), later fields may also be `*`. -/
def grantedClaimRegexTest (d : Char) (s : String) : Bool :=
  match jsSplit d s with
  | [] => false
  | p :: ps => charsetRun p && ps.all grantedSegment

/-- The length-tolerant per-entry wildcard match of `inGrantedRule`
(`src/unnamed/part_002`, lines 38-53): equal lengths compare positionwise with
`*` in the granted entry matching anything; a longer granted entry matches iff
its tail beyond the requested length is all `*` and the shared prefix is
positionwise equal (no wildcard there); a shorter granted entry never matches.
JS index access `xs[i]` is modelled by `List.getD xs i ""` (every access is in
range). -/
def matchClaim (requested granted : List String) : Bool :=
  if granted.length == requested.length then
    (List.range granted.length).all fun i =>
      granted.getD i "" == "*" || granted.getD i "" == requested.getD i ""
  else if requested.length < granted.length then
    ((granted.drop requested.length).all fun scope => scope == "*") &&
      ((List.range requested.length).all fun i =>
        requested.getD i "" == granted.getD i "")
  else false

/-- The strict-length per-entry wildcard match of `inGrantedRule`
(`src/index.js`, lines 27-34): only equal-length entries can match. -/
def matchClaimStrict (requested granted : List String) : Bool :=
  granted.length == requested.length &&
    (List.range granted.length).all fun i =>
      granted.getD i "" == "*" || granted.getD i "" == requested.getD i ""

/-- `inGrantedRule` membership test (`src/unnamed/part_002`):
`grantedScope.some(...)`. -/
def inGrantedRule (requested : List String) (grantedScope : List (List String)) :
    Bool :=
  grantedScope.any fun granted => matchClaim requested granted

/-- `inGrantedRule` membership test of the strict variant (`src/index.js`). -/
def inGrantedRuleStrict (requested : List String)
    (grantedScope : List (List String)) : Bool :=
  grantedScope.any fun granted => matchClaimStrict requested granted

/-- Model of a thrown module error (`src/errors.js`): the class name, the
machine-readable `code`, and the `expose`/`status` fields set by the subclass
constructors (`none` on the base class `ExpressJwtScopeError`). -/
structure JsError where
  name : String
  code : String
  expose : Option Bool
  status : Option Nat
deriving DecidableEq, Repr

/-- `new ExpressJwtScopeError(message, code)` (`src/errors.js`). -/
def expressJwtScopeError (code : String) : JsError :=
  ⟨"ExpressJwtScopeError", code, none, none⟩

/-- `new InternalServerError(message, code)` (`src/errors.js`): `expose =
false`, `status = 500`. -/
def internalServerError (code : String) : JsError :=
  ⟨"InternalServerError", code, some false, some 500⟩

/-- `new ForbiddenError(message, code)` (`src/errors.js`): `expose = true`,
`status = 403`. -/
def forbiddenError (code : String) : JsError :=
  ⟨"ForbiddenError", code, some true, some 403⟩

/-- An argument of the middleware factory function: a permission string, a
user-supplied predicate (identified by an id resolved in an environment), or
any other JS value (rejected by `factoryArgv`). -/
inductive FactoryArg where
  | str (s : String)
  | fn (id : Nat)
  | other (v : JSValue)

/-- One element of the output of `factoryArgv`: a permission split into its
segment sequence, or a user predicate passed through unchanged. -/
inductive ParsedArg where
  | seq (segments : List String)
  | fn (id : Nat)
deriving DecidableEq, Repr

/-- The own keys of the `hash` object of `factoryArgv`, modelled by the list
of keys inserted so far.  This is only part of what the JS `in` operator
sees: see `jsIn`. -/
def containsStr (hash : List String) (s : String) : Bool :=
  hash.any fun t => t == s

/-- The property names a plain JS object (`const hash`, an empty object literal) inherits from
`Object.prototype`: the seven standard methods/`constructor` plus the Annex B
legacy accessors.  All of them satisfy the `[a-zA-Z0-9_]+` claim grammar. -/
def objectPrototypeKeys : List String :=
  ["constructor", "hasOwnProperty", "isPrototypeOf", "propertyIsEnumerable",
    "toLocaleString", "toString", "valueOf", "__proto__",
    "__defineGetter__", "__defineSetter__", "__lookupGetter__",
    "__lookupSetter__"]

/-- The JS `claim in hash` test of `factoryArgv`: the `in` operator finds the
own keys inserted so far and also every property inherited from
`Object.prototype`. -/
def jsIn (hash : List String) (s : String) : Bool :=
  objectPrototypeKeys.contains s || containsStr hash s

/-- The argument loop of `factoryArgv` (`src/utils.js`): functions are passed
through, strings must match the requested-side regular expression and are
split on the claim-scope delimiter, any other value is an `invalid_argument`
error, and a string for which `claim in hash` already holds is skipped.  The
`in` test (`jsIn`) is true for the keys inserted so far and for the
`Object.prototype` property names, so such strings are skipped even on their
first occurrence.  A thrown error aborts the whole loop, which `Except.map`
models (no fragment of the output survives). -/
def factoryArgvGo (d : Char) : List FactoryArg → List String →
    Except JsError (List ParsedArg)
  | [], _ => .ok []
  | .fn id :: rest, hash =>
    (factoryArgvGo d rest hash).map (ParsedArg.fn id :: ·)
  | .str s :: rest, hash =>
    if !requestedClaimRegexTest d s then
      .error (expressJwtScopeError "invalid_argument")
    else if jsIn hash s then
      factoryArgvGo d rest hash
    else
      (factoryArgvGo d rest (s :: hash)).map (ParsedArg.seq (jsSplit d s) :: ·)
  | .other _ :: _, _ => .error (expressJwtScopeError "invalid_argument")

/-- `factoryArgv(claims, claimCharset, claimScopeDelimiter)` (`src/utils.js`):
an empty argument list is an `empty_argument_list` error, otherwise the
argument loop runs with an empty hash.  The `claimCharset` parameter is fixed
to the `[a-zA-Z0-9_]` charset that `moduleArgv` always supplies
(`charsetChar`). -/
def factoryArgv (claims : List FactoryArg) (d : Char) :
    Except JsError (List ParsedArg) :=
  if claims.isEmpty then .error (expressJwtScopeError "empty_argument_list")
  else factoryArgvGo d claims []

/-- The claim loop of `parseGrantedScope` (`src/utils.js`, lines 344-354):
each element must be a string matching the granted-side regular expression and
is split on the claim-scope delimiter; any failure throws
`InternalServerError('unsupported_permission_value')`, aborting the whole
parse with nothing of the output kept. -/
def parseScopeList (dsc : Char) : List JSValue →
    Except JsError (List (List String))
  | [] => .ok []
  | claim :: rest =>
    match claim with
    | .str s =>
      if grantedClaimRegexTest dsc s then
        (parseScopeList dsc rest).map (jsSplit dsc s :: ·)
      else .error (internalServerError "unsupported_permission_value")
    | _ => .error (internalServerError "unsupported_permission_value")

/-- `parseGrantedScope(scope, claimDelimiter, claimCharset,
claimScopeDelimiter)` (`src/utils.js`, lines 321-357): a non-empty string is
split on the claim delimiter, an empty string or `undefined` become the empty
claim list, an array is used as-is, and any other value throws
`InternalServerError('unsupported_scope_type')`. -/
def parseGrantedScope (scope : JSValue) (claimDelimiter claimScopeDelimiter : Char) :
    Except JsError (List (List String)) :=
  match scope with
  | .str s =>
    parseScopeList claimScopeDelimiter
      (if s != "" then (jsSplit claimDelimiter s).map JSValue.str else [])
  | .undefined => parseScopeList claimScopeDelimiter []
  | .arr elems => parseScopeList claimScopeDelimiter elems
  | _ => .error (internalServerError "unsupported_scope_type")

/-- The character class of the `delimiterRegex`
`[-!"#$%&'()+,./:;<=>?@[\]^\x60\x7b|\x7d~]` of `moduleArgv` (`src/utils.js`,
lines 411-469): the ASCII punctuation characters with underscore and `*`
excluded.  (`\x60`, `\x7b`, `\x7d` are the backquote and brace characters.) -/
def delimiterRegexChars : List Char :=
  "-!\x22#$%&\x27()+,./:;<=>?@[]^\x60\x7b|\x7d~".data

/-- `delimiterRegex.test(s)`: some character of `s` is in the class. -/
def delimiterRegexTest (s : String) : Bool :=
  s.data.any fun c => delimiterRegexChars.contains c

/-- `validDelimiter` of `moduleArgv`: a string of length one. -/
def validDelimiter (s : String) : Bool :=
  s.length == 1

/-- `validClaimDelimiter` of `moduleArgv`: one punctuation character or a
space. -/
def validClaimDelimiter (s : String) : Bool :=
  validDelimiter s && (delimiterRegexTest s || s == " ")

/-- `validClaimScopeDelimiter` of `moduleArgv`: one punctuation character,
space not allowed. -/
def validClaimScopeDelimiter (s : String) : Bool :=
  validDelimiter s && delimiterRegexTest s

/-- JS truthiness of an optionally-supplied string option: `undefined` and
`''` are falsy. -/
def strTruthy : Option String → Bool
  | none => false
  | some s => s != ""

/-- The delimiter part of the configuration returned by `moduleArgv`. -/
structure Config where
  claimDelimiter : String
  claimScopeDelimiter : String
deriving DecidableEq, Repr

/-- The delimiter validation of `moduleArgv` (`src/utils.js`, lines 411-469):
a supplied (truthy) delimiter failing its validator throws
`invalid_config_option`; then defaults `,` and `:` are applied to unsupplied
delimiters and equal delimiters throw `invalid_configuration`. -/
def moduleArgv (claimDelimiter claimScopeDelimiter : Option String) :
    Except JsError Config :=
  if strTruthy claimDelimiter && !validClaimDelimiter (claimDelimiter.getD "") then
    .error (expressJwtScopeError "invalid_config_option")
  else if strTruthy claimScopeDelimiter &&
      !validClaimScopeDelimiter (claimScopeDelimiter.getD "") then
    .error (expressJwtScopeError "invalid_config_option")
  else
    let cd := if strTruthy claimDelimiter then claimDelimiter.getD "" else ","
    let csd :=
      if strTruthy claimScopeDelimiter then claimScopeDelimiter.getD "" else ":"
    if cd == csd then .error (expressJwtScopeError "invalid_configuration")
    else .ok ⟨cd, csd⟩

/-- `true` iff the `Except` is an `error`. -/
def exceptIsError {ε α : Type} : Except ε α → Bool
  | .error _ => true
  | .ok _ => false

/-- The granted scope passed to every rule: `string[][]`. -/
abbrev GrantedScope := List (List String)

/-- An evaluation rule `(grantedScope, helpers) => value`.  The awaited JS
return value is a `JSValue` (coerced by the combinators through `truthy`); the
state `σ` stands for the helpers object together with any side effects a user
predicate performs, and sequential `await` becomes state threading. -/
abbrev Rule (σ : Type) := GrantedScope → σ → JSValue × σ

/-- `notRule` (`src/index.js`, `src/unnamed/part_002`): awaits its single rule
and negates the truthiness of the result. -/
def notRule {σ : Type} (rule : Rule σ) : Rule σ := fun gs s =>
  let r := rule gs s
  (.bool (!truthy r.1), r.2)

/-- `andReducer` (`src/index.js` lines 45-55, `src/unnamed/part_002`): awaits
the rules left-to-right, returns `false` at the first falsy result without
touching the remaining rules, `true` if all results are truthy. -/
def andReducer {σ : Type} : List (Rule σ) → Rule σ
  | [] => fun _ s => (.bool true, s)
  | rule :: rest => fun gs s =>
    let r := rule gs s
    if truthy r.1 then andReducer rest gs r.2 else (.bool false, r.2)

/-- `orReducer` (`src/index.js` lines 60-70, `src/unnamed/part_002`): awaits
the rules left-to-right, returns `true` at the first truthy result without
touching the remaining rules, `false` if all results are falsy. -/
def orReducer {σ : Type} : List (Rule σ) → Rule σ
  | [] => fun _ s => (.bool false, s)
  | rule :: rest => fun gs s =>
    let r := rule gs s
    if truthy r.1 then (.bool true, r.2) else orReducer rest gs r.2

/-- A predicate whose awaited return value is the constant `v` and which has
no side effect. -/
def constRule {σ : Type} (v : JSValue) : Rule σ := fun _ s => (v, s)

/-- The rule built from one processed factory argument (`ruleQueueBuilder`,
`src/index.js` lines 98-105): a permission becomes an `inGrantedRule` check, a
function id becomes the user rule the environment assigns to it.  (`userRule`
deep-copies the arguments before calling the user function; the copying does
not change the returned value, so the wrapper is the environment's rule
itself.) -/
def toRule {σ : Type} (env : Nat → Rule σ) : ParsedArg → Rule σ
  | .seq requested => fun gs s => (.bool (inGrantedRule requested gs), s)
  | .fn id => env id

/-- `queue.length === 1 ? queue[0] : andReducer(...queue)` of
`ruleQueueBuilder`. -/
def ruleQueue {σ : Type} (env : Nat → Rule σ) (parsed : List ParsedArg) :
    Rule σ :=
  match parsed.map (toRule env) with
  | [q] => q
  | qs => andReducer qs

/-- `ruleQueueBuilder(claims)` (`src/index.js` lines 98-105): processes the
factory arguments and folds the resulting rules. -/
def ruleQueueBuilder {σ : Type} (env : Nat → Rule σ) (d : Char)
    (claims : List FactoryArg) : Except JsError (Rule σ) :=
  (factoryArgv claims d).map (ruleQueue env)

/-- `middleware.or(...requested)` (`src/index.js` lines 189-192): the new
access checker is `orReducer(previousChecker, newRules)`. -/
def orExtend {σ : Type} (root newRule : Rule σ) : Rule σ :=
  orReducer [root, newRule]

/-- `middleware.not(...requested)` (`src/index.js` lines 201-207): the new
access checker is `andReducer(previousChecker, notRule(newRules))`. -/
def notExtend {σ : Type} (root newRule : Rule σ) : Rule σ :=
  andReducer [root, notRule newRule]

/-- Sequential all-truthy: the rules, awaited left-to-right with the state
threaded through, all return truthy values. -/
def seqAllTruthy {σ : Type} (gs : GrantedScope) : List (Rule σ) → σ → Prop
  | [], _ => True
  | rule :: rest, s =>
    truthy (rule gs s).1 = true ∧ seqAllTruthy gs rest (rule gs s).2

/-- Sequential any-truthy: awaiting the rules left-to-right, some rule returns
a truthy value (all rules before it having returned falsy ones). -/
def seqAnyTruthy {σ : Type} (gs : GrantedScope) : List (Rule σ) → σ → Prop
  | [], _ => False
  | rule :: rest, s =>
    truthy (rule gs s).1 = true ∨ seqAnyTruthy gs rest (rule gs s).2

/-- `new UnauthorizedError(message, code)`: exposed, status 401 (README.md
error table). -/
def unauthorizedError (code : String) : JsError :=
  ⟨"UnauthorizedError", code, some true, some 401⟩

/-- Modelled from the spec: the token fetch of the released middleware with
the `credentialsRequired` option.  Its implementation is not under `src/`
(only `src/README.md` and `src/tests/index.test.js` refer to it): a missing
access token at the configured token path throws the exposed, client-facing
`UnauthorizedError` when credentials are required, and is passed through
otherwise.  (`src/index.js` and `src/unnamed/part_002` are earlier versions
that throw `InternalServerError` here instead.) -/
def fetchToken (tokenAtKey : JSValue) (credentialsRequired : Bool) :
    Except JsError (Option JSValue) :=
  if truthy tokenAtKey then .ok (some tokenAtKey)
  else if credentialsRequired then
    .error (unauthorizedError "authorization_token_not_found")
  else .ok none

end ExpressJwtScope

namespace ExpressJwtScope
end ExpressJwtScope

namespace ExpressJwtScope

/-- `(List.range n).all f` says `f` holds at every index below `n`. -/
theorem range_all_iff (n : Nat) (f : Nat → Bool) :
    (List.range n).all f = true ↔ ∀ i, i < n → f i = true := by
  simp [List.all_eq_true, List.mem_range]

/-- C1: the wildcard matcher of `src/unnamed/part_002` is length-tolerant:
when the granted entry is longer than the requested one, it matches iff every
requested position equals the corresponding granted position exactly (a
wildcard in the shared prefix is not special) and the whole granted tail
beyond the requested length is the literal `*`; in particular granted
`user:*` matches requested `user`. -/
theorem wildcard_matcher_length_tolerant (requested granted : List String)
    (h : requested.length < granted.length) :
    (matchClaim requested granted = true ↔
      ((∀ i, i < requested.length →
          requested.getD i "" = granted.getD i "") ∧
        ∀ scope ∈ granted.drop requested.length, scope = "*")) ∧
    matchClaim ["user"] ["user", "*"] = true := by
  refine ⟨?_, by decide⟩
  have hne : (granted.length == requested.length) = false := by
    simp only [beq_eq_false_iff_ne, ne_eq]
    omega
  simp only [matchClaim, hne, Bool.false_eq_true, if_false, h, if_true,
    Bool.and_eq_true, List.all_eq_true, List.mem_range, beq_iff_eq]
  tauto

/-- C1 witness. -/
theorem wildcard_matcher_length_tolerant_witness :
    (["user"] : List String).length < (["user", "*"] : List String).length ∧
    matchClaim ["user"] ["user", "*"] = true :=
  ⟨by decide, (wildcard_matcher_length_tolerant ["user"] ["user", "*"] (by decide)).2⟩

/-- C3: for entries of equal length, both wildcard matchers (`src/index.js`
and `src/unnamed/part_002`) match iff at every position the granted value is
the literal `*` or equals the requested value; a granted entry strictly
shorter than the requested one never matches in either variant. -/
theorem wildcard_matcher_equal_and_shorter (requested granted : List String) :
    (granted.length = requested.length →
      (matchClaim requested granted = true ↔
        ∀ i, i < granted.length →
          granted.getD i "" = "*" ∨ granted.getD i "" = requested.getD i "")) ∧
    (granted.length < requested.length →
      matchClaim requested granted = false) ∧
    (granted.length = requested.length →
      (matchClaimStrict requested granted = true ↔
        ∀ i, i < granted.length →
          granted.getD i "" = "*" ∨ granted.getD i "" = requested.getD i "")) ∧
    (granted.length < requested.length →
      matchClaimStrict requested granted = false) := by
  refine ⟨?_, ?_, ?_, ?_⟩
  · intro hlen
    simp only [matchClaim, hlen, beq_self_eq_true, if_true, range_all_iff,
      Bool.or_eq_true, beq_iff_eq]
  · intro hlt
    have hne : (granted.length == requested.length) = false := by
      simp only [beq_eq_false_iff_ne, ne_eq]
      omega
    have hnlt : ¬requested.length < granted.length := by omega
    simp only [matchClaim, hne, Bool.false_eq_true, if_false, hnlt]
  · intro hlen
    simp only [matchClaimStrict, hlen, beq_self_eq_true, Bool.true_and,
      range_all_iff, Bool.or_eq_true, beq_iff_eq]
  · intro hlt
    have hne : (granted.length == requested.length) = false := by
      simp only [beq_eq_false_iff_ne, ne_eq]
      omega
    simp only [matchClaimStrict, hne, Bool.false_and]

/-- C3 witness. -/
theorem wildcard_matcher_equal_and_shorter_witness :
    (matchClaim ["user", "add"] ["user", "*"] = true ↔
      ∀ i, i < (["user", "*"] : List String).length →
        (["user", "*"] : List String).getD i "" = "*" ∨
          (["user", "*"] : List String).getD i "" =
            (["user", "add"] : List String).getD i "") ∧
    matchClaim ["a"] [] = false ∧
    matchClaimStrict ["a"] [] = false :=
  ⟨(wildcard_matcher_equal_and_shorter ["user", "add"] ["user", "*"]).1 rfl,
    (wildcard_matcher_equal_and_shorter ["a"] []).2.1 (by decide),
    (wildcard_matcher_equal_and_shorter ["a"] []).2.2.2 (by decide)⟩
end ExpressJwtScope

namespace ExpressJwtScope

/-- C2: `andReducer` and `orReducer` evaluate their rules sequentially in
declaration order and short-circuit.  First block: on a falsy first result
`andReducer` returns `false` with exactly the state after that rule — the
remaining rules are never evaluated — and on a truthy one it continues with
the remaining rules on the threaded state; dually for `orReducer`.  Second
block: the result is `true` iff the sequential evaluation finds all rules
truthy (`andReducer`), respectively some rule truthy (`orReducer`).  Last
conjunct: with the rules `[falsy, truthy]`, each recording its call in the
state, the `AND` evaluation returns `false` and the call trace `[0]` shows
the truthy rule was never called. -/
theorem combinator_short_circuit :
    (∀ (σ : Type) (gs : GrantedScope) (s : σ) (rule : Rule σ)
        (rest : List (Rule σ)),
      (truthy (rule gs s).1 = false →
        andReducer (rule :: rest) gs s = (.bool false, (rule gs s).2)) ∧
      (truthy (rule gs s).1 = true →
        andReducer (rule :: rest) gs s = andReducer rest gs (rule gs s).2) ∧
      (truthy (rule gs s).1 = true →
        orReducer (rule :: rest) gs s = (.bool true, (rule gs s).2)) ∧
      (truthy (rule gs s).1 = false →
        orReducer (rule :: rest) gs s = orReducer rest gs (rule gs s).2)) ∧
    (∀ (σ : Type) (gs : GrantedScope) (s : σ) (rules : List (Rule σ)),
      ((andReducer rules gs s).1 = .bool true ↔ seqAllTruthy gs rules s) ∧
      ((orReducer rules gs s).1 = .bool true ↔ seqAnyTruthy gs rules s)) ∧
    andReducer [fun _ (s : List Nat) => (.bool false, s ++ [0]),
                fun _ s => (.bool true, s ++ [1])] [] [] = (.bool false, [0]) := by
  refine ⟨?_, ?_, rfl⟩
  · intro σ gs s rule rest
    refine ⟨?_, ?_, ?_, ?_⟩ <;> intro h <;> simp [andReducer, orReducer, h]
  · intro σ gs s rules
    constructor
    · induction rules generalizing s with
      | nil => simp [andReducer, seqAllTruthy]
      | cons rule rest ih =>
        by_cases hr : truthy (rule gs s).1 = true
        · simp [andReducer, seqAllTruthy, hr, ih]
        · simp [andReducer, seqAllTruthy, hr]
    · induction rules generalizing s with
      | nil => simp [orReducer, seqAnyTruthy]
      | cons rule rest ih =>
        by_cases hr : truthy (rule gs s).1 = true
        · simp [orReducer, seqAnyTruthy, hr]
        · simp [orReducer, seqAnyTruthy, hr, ih]

/-- C2 witness. -/
theorem combinator_short_circuit_witness :
    truthy ((constRule (.bool false) : Rule Unit) [] ()).1 = false ∧
    andReducer [constRule (.bool false), constRule (.bool true)] [] () =
      (.bool false, ((constRule (.bool false) : Rule Unit) [] ()).2) :=
  ⟨by decide,
    (combinator_short_circuit.1 Unit [] () (constRule (.bool false))
      [constRule (.bool true)]).1 (by decide)⟩

/-- C10: a user predicate passes under truthiness coercion, not strict
equality to `true`: inside the combinators a rule whose awaited value is any
truthy JS value counts as satisfied (`andReducer` proceeds, `orReducer`
succeeds immediately) and any falsy value counts as failure; in particular an
object, a non-empty string and the number 1 are all satisfied even though
none of them is the boolean `true`. -/
theorem predicate_truthiness (σ : Type) (gs : GrantedScope) (s : σ)
    (v : JSValue) (rest : List (Rule σ)) :
    (truthy v = true →
      andReducer (constRule v :: rest) gs s = andReducer rest gs s) ∧
    (truthy v = false →
      andReducer (constRule v :: rest) gs s = (.bool false, s)) ∧
    (truthy v = true →
      orReducer (constRule v :: rest) gs s = (.bool true, s)) ∧
    notRule (constRule v) gs s = (.bool (!truthy v), s) ∧
    truthy .obj = true ∧ truthy (.str "x") = true ∧ truthy (.num 1) = true ∧
    JSValue.obj ≠ JSValue.bool true ∧ JSValue.num 1 ≠ JSValue.bool true := by
  refine ⟨?_, ?_, ?_, rfl, rfl, by decide, by decide, ?_, ?_⟩
  · intro h
    simp [andReducer, constRule, h]
  · intro h
    simp [andReducer, constRule, h]
  · intro h
    simp [orReducer, constRule, h]
  · intro h
    cases h
  · intro h
    cases h

/-- C10 witness. -/
theorem predicate_truthiness_witness :
    andReducer [(constRule .obj : Rule Unit)] [] () = andReducer [] [] () ∧
    andReducer [(constRule (.bool false) : Rule Unit)] [] () =
      (.bool false, ()) ∧
    orReducer [(constRule .obj : Rule Unit)] [] () = (.bool true, ()) :=
  ⟨(predicate_truthiness Unit [] () .obj []).1 rfl,
    (predicate_truthiness Unit [] () (.bool false) []).2.1 rfl,
    (predicate_truthiness Unit [] () .obj []).2.2.1 rfl⟩
end ExpressJwtScope

namespace ExpressJwtScope

/-- A factory argument `factoryArgv` accepts: a function, or a string
matching the requested-side grammar. -/
def argOK (d : Char) : FactoryArg → Bool
  | .fn _ => true
  | .str s => requestedClaimRegexTest d s
  | .other _ => false

/-- If some argument is rejected, the whole loop throws `invalid_argument`. -/
theorem factoryArgvGo_error (d : Char) (claims : List FactoryArg)
    (hash : List String) (a : FactoryArg) (ha : a ∈ claims)
    (hbad : argOK d a = false) :
    factoryArgvGo d claims hash =
      .error (expressJwtScopeError "invalid_argument") := by
  induction claims generalizing hash with
  | nil => cases ha
  | cons b rest ih =>
    rcases List.mem_cons.mp ha with hb | hb
    · subst hb
      cases a with
      | fn id => simp [argOK] at hbad
      | str s =>
        simp only [argOK] at hbad
        simp [factoryArgvGo, hbad]
      | other v => simp [factoryArgvGo]
    · cases b with
      | fn id => simp [factoryArgvGo, Except.map, ih hash hb]
      | str s =>
        by_cases hs : requestedClaimRegexTest d s = true
        · by_cases hc : jsIn hash s = true
          · simp [factoryArgvGo, hs, hc, ih hash hb]
          · simp [factoryArgvGo, Except.map, hs, hc, ih (s :: hash) hb]
        · simp only [Bool.not_eq_true] at hs
          simp [factoryArgvGo, hs]
      | other v => simp [factoryArgvGo]

/-- If every argument is accepted, the loop succeeds, strings become their
split segment sequences and functions pass through. -/
theorem factoryArgvGo_ok (d : Char) (claims : List FactoryArg)
    (hash : List String) (hok : ∀ a ∈ claims, argOK d a = true) :
    ∃ out, factoryArgvGo d claims hash = .ok out ∧
      ∀ p ∈ out,
        (∃ id, p = .fn id ∧ FactoryArg.fn id ∈ claims) ∨
        (∃ s, p = .seq (jsSplit d s) ∧ FactoryArg.str s ∈ claims) := by
  induction claims generalizing hash with
  | nil => exact ⟨[], rfl, by simp⟩
  | cons b rest ih =>
    have hrest : ∀ a ∈ rest, argOK d a = true := fun a ha =>
      hok a (List.mem_cons_of_mem b ha)
    cases b with
    | fn id =>
      obtain ⟨out, hout, hmem⟩ := ih hash hrest
      refine ⟨.fn id :: out, by simp [factoryArgvGo, Except.map, hout], ?_⟩
      intro p hp
      rcases List.mem_cons.mp hp with hp | hp
      · exact Or.inl ⟨id, hp, List.mem_cons_self _ _⟩
      · rcases hmem p hp with ⟨i, hpi, hi⟩ | ⟨s, hps, hs⟩
        · exact Or.inl ⟨i, hpi, List.mem_cons_of_mem _ hi⟩
        · exact Or.inr ⟨s, hps, List.mem_cons_of_mem _ hs⟩
    | str s =>
      have hs : requestedClaimRegexTest d s = true := hok _ (List.mem_cons_self _ _)
      by_cases hc : jsIn hash s = true
      · obtain ⟨out, hout, hmem⟩ := ih hash hrest
        refine ⟨out, by simp [factoryArgvGo, hs, hc, hout], ?_⟩
        intro p hp
        rcases hmem p hp with ⟨i, hpi, hi⟩ | ⟨t, hpt, ht⟩
        · exact Or.inl ⟨i, hpi, List.mem_cons_of_mem _ hi⟩
        · exact Or.inr ⟨t, hpt, List.mem_cons_of_mem _ ht⟩
      · obtain ⟨out, hout, hmem⟩ := ih (s :: hash) hrest
        refine ⟨.seq (jsSplit d s) :: out,
          by simp [factoryArgvGo, Except.map, hs, hc, hout], ?_⟩
        intro p hp
        rcases List.mem_cons.mp hp with hp | hp
        · exact Or.inr ⟨s, hp, List.mem_cons_self _ _⟩
        · rcases hmem p hp with ⟨i, hpi, hi⟩ | ⟨t, hpt, ht⟩
          · exact Or.inl ⟨i, hpi, List.mem_cons_of_mem _ hi⟩
          · exact Or.inr ⟨t, hpt, List.mem_cons_of_mem _ ht⟩
    | other v =>
      have := hok _ (List.mem_cons_self (FactoryArg.other v) rest)
      simp [argOK] at this

/-- C4: `factoryArgv` rejects with an `invalid_argument`
`ExpressJwtScopeError` every string argument that fails the requested-side
grammar — in particular `user:*`, since the wildcard is not in the charset —
and every argument that is neither a string nor a function; when every
argument is acceptable it succeeds, the string arguments entering the output
as their delimiter-split segment sequences and the functions passing through
unchanged. -/
theorem factoryArgv_rejects_invalid :
    (∀ (d : Char) (claims : List FactoryArg) (s : String),
      FactoryArg.str s ∈ claims → requestedClaimRegexTest d s = false →
      factoryArgv claims d =
        .error (expressJwtScopeError "invalid_argument")) ∧
    (∀ (d : Char) (claims : List FactoryArg) (v : JSValue),
      FactoryArg.other v ∈ claims →
      factoryArgv claims d =
        .error (expressJwtScopeError "invalid_argument")) ∧
    (∀ (d : Char) (claims : List FactoryArg),
      claims ≠ [] → (∀ a ∈ claims, argOK d a = true) →
      ∃ out, factoryArgv claims d = .ok out ∧
        ∀ p ∈ out,
          (∃ id, p = .fn id ∧ FactoryArg.fn id ∈ claims) ∨
          (∃ s, p = .seq (jsSplit d s) ∧ FactoryArg.str s ∈ claims)) ∧
    factoryArgv [.str "user:*"] ':' =
      .error (expressJwtScopeError "invalid_argument") ∧
    (expressJwtScopeError "invalid_argument").name = "ExpressJwtScopeError" ∧
    (expressJwtScopeError "invalid_argument").code = "invalid_argument" := by
  refine ⟨?_, ?_, ?_, rfl, rfl, rfl⟩
  · intro d claims s hmem hbad
    have hne : claims.isEmpty = false := by
      cases claims with
      | nil => cases hmem
      | cons a rest => rfl
    simp only [factoryArgv, hne, Bool.false_eq_true, if_false]
    exact factoryArgvGo_error d claims [] (.str s) hmem (by simp [argOK, hbad])
  · intro d claims v hmem
    have hne : claims.isEmpty = false := by
      cases claims with
      | nil => cases hmem
      | cons a rest => rfl
    simp only [factoryArgv, hne, Bool.false_eq_true, if_false]
    exact factoryArgvGo_error d claims [] (.other v) hmem (by simp [argOK])
  · intro d claims hne hok
    have hne' : claims.isEmpty = false := by
      cases claims with
      | nil => exact absurd rfl hne
      | cons a rest => rfl
    simp only [factoryArgv, hne', Bool.false_eq_true, if_false]
    exact factoryArgvGo_ok d claims [] hok

/-- C4 witness. -/
theorem factoryArgv_rejects_invalid_witness :
    (FactoryArg.str "user:*" ∈ [FactoryArg.str "user:*"] ∧
      requestedClaimRegexTest ':' "user:*" = false ∧
      factoryArgv [.str "user:*"] ':' =
        .error (expressJwtScopeError "invalid_argument")) ∧
    (FactoryArg.other (.num 5) ∈ [FactoryArg.other (.num 5)] ∧
      factoryArgv [.other (.num 5)] ':' =
        .error (expressJwtScopeError "invalid_argument")) ∧
    ∃ out, factoryArgv [.str "user:add", .fn 3] ':' = .ok out ∧
      ∀ p ∈ out,
        (∃ id, p = .fn id ∧ FactoryArg.fn id ∈ [FactoryArg.str "user:add", FactoryArg.fn 3]) ∨
        (∃ s, p = .seq (jsSplit ':' s) ∧
          FactoryArg.str s ∈ [FactoryArg.str "user:add", FactoryArg.fn 3]) := by
  refine ⟨⟨List.mem_cons_self _ _, by decide, ?_⟩,
    ⟨List.mem_cons_self _ _, ?_⟩, ?_⟩
  · exact factoryArgv_rejects_invalid.1 ':' [.str "user:*"] "user:*"
      (List.mem_cons_self _ _) (by decide)
  · exact factoryArgv_rejects_invalid.2.1 ':' [.other (.num 5)] (.num 5)
      (List.mem_cons_self _ _)
  · exact factoryArgv_rejects_invalid.2.2.1 ':' [.str "user:add", .fn 3]
      (by intro h; cases h) (by decide)
end ExpressJwtScope

namespace ExpressJwtScope

/-- Whether the string `s` already occurs as a permission-string argument in
the prefix `prev` of the argument list. -/
def containsFactoryStr (prev : List FactoryArg) (s : String) : Bool :=
  prev.any fun a => match a with
    | .str t => t == s
    | _ => false

/-- What the argument walk of `factoryArgv` actually retains: walking the
argument list with its already-read prefix at hand, every function argument
is kept, and a string argument is kept (split into its segment sequence)
exactly when it is not an `Object.prototype` property name and no earlier
argument is the same string.  The dedup test is the JS `in` operator, so a
string equal to an inherited property name is dropped even on its first
occurrence. -/
def dedupSpec (d : Char) : List FactoryArg → List FactoryArg → List ParsedArg
  | _, [] => []
  | prev, .fn id :: rest => .fn id :: dedupSpec d (prev ++ [.fn id]) rest
  | prev, .str s :: rest =>
    if objectPrototypeKeys.contains s || containsFactoryStr prev s then
      dedupSpec d (prev ++ [.str s]) rest
    else .seq (jsSplit d s) :: dedupSpec d (prev ++ [.str s]) rest
  | prev, .other v :: rest => dedupSpec d (prev ++ [.other v]) rest

theorem containsFactoryStr_append_fn (prev : List FactoryArg) (id : Nat)
    (t : String) :
    containsFactoryStr (prev ++ [.fn id]) t = containsFactoryStr prev t := by
  simp [containsFactoryStr, List.any_append]

theorem containsFactoryStr_append_str (prev : List FactoryArg) (s t : String) :
    containsFactoryStr (prev ++ [.str s]) t =
      (containsFactoryStr prev t || (s == t)) := by
  simp [containsFactoryStr, List.any_append]

/-- The `in`-operator loop of `factoryArgv` computes `dedupSpec` whenever the
`in` test on the hash agrees with "prototype property name, or permission
string of the already-read prefix". -/
theorem factoryArgvGo_dedupSpec (d : Char) (claims : List FactoryArg)
    (hash : List String) (prev : List FactoryArg)
    (hok : ∀ a ∈ claims, argOK d a = true)
    (hinv : ∀ t, jsIn hash t =
      (objectPrototypeKeys.contains t || containsFactoryStr prev t)) :
    factoryArgvGo d claims hash = .ok (dedupSpec d prev claims) := by
  induction claims generalizing hash prev with
  | nil => rfl
  | cons b rest ih =>
    have hrest : ∀ a ∈ rest, argOK d a = true := fun a ha =>
      hok a (List.mem_cons_of_mem b ha)
    cases b with
    | fn id =>
      have hinv' : ∀ t, jsIn hash t =
          (objectPrototypeKeys.contains t ||
            containsFactoryStr (prev ++ [.fn id]) t) := by
        intro t
        rw [containsFactoryStr_append_fn]
        exact hinv t
      simp [factoryArgvGo, Except.map, dedupSpec, ih hash _ hrest hinv']
    | str s =>
      have hs : requestedClaimRegexTest d s = true :=
        hok _ (List.mem_cons_self _ _)
      by_cases hc : jsIn hash s = true
      · have hcond : (objectPrototypeKeys.contains s ||
            containsFactoryStr prev s) = true := by
          rw [← hinv s]; exact hc
        have hinv' : ∀ t, jsIn hash t =
            (objectPrototypeKeys.contains t ||
              containsFactoryStr (prev ++ [.str s]) t) := by
          intro t
          rw [containsFactoryStr_append_str]
          by_cases heq : s = t
          · subst heq
            simp [hc]
          · have hne : (s == t) = false := by simp [heq]
            simp only [hne, Bool.or_false]
            exact hinv t
        have hcond' : s ∈ objectPrototypeKeys ∨
            containsFactoryStr prev s = true := by
          simpa using hcond
        simp [factoryArgvGo, hs, hc, dedupSpec, hcond', ih hash _ hrest hinv']
      · have hcond : (objectPrototypeKeys.contains s ||
            containsFactoryStr prev s) = false := by
          rw [← hinv s]
          simpa using hc
        have hinv' : ∀ t, jsIn (s :: hash) t =
            (objectPrototypeKeys.contains t ||
              containsFactoryStr (prev ++ [.str s]) t) := by
          intro t
          rw [containsFactoryStr_append_str]
          have h0 := hinv t
          simp only [jsIn, containsStr, List.any_cons] at h0 ⊢
          cases hp : objectPrototypeKeys.contains t <;>
            cases hst : (s == t) <;> simp_all
        have hcond' : ¬(s ∈ objectPrototypeKeys ∨
            containsFactoryStr prev s = true) := by
          simpa using hcond
        simp [factoryArgvGo, Except.map, hs, hc, dedupSpec, hcond',
          ih (s :: hash) _ hrest hinv']
    | other v =>
      have := hok _ (List.mem_cons_self (FactoryArg.other v) rest)
      simp [argOK] at this

/-- C8 counterexample: at the argument list `['toString']` the string is
acceptable to the requested-side grammar and this is its first (and only)
occurrence, yet `factoryArgv` returns the empty output, so the first
occurrence is not retained: `'toString' in hash` is already true on the
freshly created hash object through `Object.prototype`. -/
theorem factoryArgv_first_occurrence_dropped :
    requestedClaimRegexTest ':' "toString" = true ∧
    jsIn [] "toString" = true ∧
    factoryArgv [.str "toString"] ':' = .ok [] ∧
    ParsedArg.seq (jsSplit ':' "toString") ∉ ([] : List ParsedArg) := by
  refine ⟨rfl, rfl, rfl, ?_⟩
  intro hmem
  cases hmem

/-- C8 (amended): on acceptable arguments `factoryArgv` keeps, in input
order, every function argument (duplicates included), and keeps exactly the
first occurrence of each permission string except those named like an
`Object.prototype` property: the dedup test is the JS `in` operator, so a
string such as `toString` is dropped even on its first occurrence, while
every other duplicate string is deduplicated by exact equality with the
first occurrence retained, as `dedupSpec` states.  Concretely, a duplicated
string `a` is kept once, a duplicated function is kept twice, and
`toString` is dropped entirely. -/
theorem factoryArgv_dedup_amended :
    (∀ (d : Char) (claims : List FactoryArg), claims ≠ [] →
      (∀ a ∈ claims, argOK d a = true) →
      factoryArgv claims d = .ok (dedupSpec d [] claims)) ∧
    factoryArgv [.str "a", .fn 7, .str "a", .fn 7] ':' =
      .ok [.seq ["a"], .fn 7, .fn 7] ∧
    dedupSpec ':' [] [.str "a", .fn 7, .str "a", .fn 7] =
      [.seq ["a"], .fn 7, .fn 7] ∧
    factoryArgv [.str "toString", .str "read"] ':' = .ok [.seq ["read"]] := by
  refine ⟨?_, rfl, rfl, rfl⟩
  intro d claims hne hok
  have hne' : claims.isEmpty = false := by
    cases claims with
    | nil => exact absurd rfl hne
    | cons a rest => rfl
  simp only [factoryArgv, hne', Bool.false_eq_true, if_false]
  exact factoryArgvGo_dedupSpec d claims [] [] hok (fun t => rfl)

/-- C8 witness. -/
theorem factoryArgv_dedup_amended_witness :
    factoryArgv [.str "read", .str "read", .fn 4] ':' =
      .ok (dedupSpec ':' [] [.str "read", .str "read", .fn 4]) :=
  factoryArgv_dedup_amended.1 ':' [.str "read", .str "read", .fn 4]
    (by intro h; cases h) (by decide)
end ExpressJwtScope

namespace ExpressJwtScope

/-- Truthiness of a boolean JS value is that boolean. -/
theorem truthy_bool (b : Bool) : truthy (.bool b) = b := rfl

/-- C5: after `middleware.or(args)` the handle's checker evaluates, on every
granted scope and state, to (previous root) OR (rules built from args), and
after `middleware.not(args)` to (previous root) AND NOT (rules built from
args), with the state threaded left to right.  The builder turns `['read']`
and `['write']` into the corresponding `inGrantedRule` checks, and the
expression built from `['read']` then `.not('write')` evaluates to `false`
against granted `"read,write"` and to `true` against granted `"read"`. -/
theorem or_not_extension :
    (∀ (σ : Type) (root newRule : Rule σ) (gs : GrantedScope) (s : σ),
      (orExtend root newRule gs s).1 =
        .bool (truthy (root gs s).1 || truthy (newRule gs (root gs s).2).1) ∧
      (notExtend root newRule gs s).1 =
        .bool (truthy (root gs s).1 && !truthy (newRule gs (root gs s).2).1)) ∧
    (∀ (σ : Type) (env : Nat → Rule σ),
      ruleQueueBuilder env ':' [.str "read"] =
        .ok (fun gs s => (.bool (inGrantedRule ["read"] gs), s)) ∧
      ruleQueueBuilder env ':' [.str "write"] =
        .ok (fun gs s => (.bool (inGrantedRule ["write"] gs), s))) ∧
    parseGrantedScope (.str "read,write") ',' ':' = .ok [["read"], ["write"]] ∧
    parseGrantedScope (.str "read") ',' ':' = .ok [["read"]] ∧
    notExtend (fun gs s => (.bool (inGrantedRule ["read"] gs), s))
      (fun gs (s : Unit) => (.bool (inGrantedRule ["write"] gs), s))
      [["read"], ["write"]] () = (.bool false, ()) ∧
    notExtend (fun gs s => (.bool (inGrantedRule ["read"] gs), s))
      (fun gs (s : Unit) => (.bool (inGrantedRule ["write"] gs), s))
      [["read"]] () = (.bool true, ()) := by
  refine ⟨?_, fun σ env => ⟨rfl, rfl⟩, rfl, rfl, rfl, rfl⟩
  intro σ root newRule gs s
  constructor
  · by_cases h1 : truthy (root gs s).1 = true
    · simp [orExtend, orReducer, h1]
    · by_cases h2 : truthy (newRule gs (root gs s).2).1 = true
      · simp [orExtend, orReducer, h1, h2]
      · simp [orExtend, orReducer, h1, h2]
  · by_cases h1 : truthy (root gs s).1 = true
    · by_cases h2 : truthy (newRule gs (root gs s).2).1 = true
      · simp [notExtend, andReducer, notRule, truthy_bool, h1, h2]
      · simp [notExtend, andReducer, notRule, truthy_bool, h1, h2]
    · simp [notExtend, andReducer, notRule, h1]

/-- A claim-list element `parseGrantedScope` rejects: a non-string, or a
string failing the granted-side grammar. -/
def badGrantedElem (dsc : Char) : JSValue → Bool
  | .str s => !grantedClaimRegexTest dsc s
  | _ => true

/-- If some claim-list element is rejected, the whole loop throws
`unsupported_permission_value`. -/
theorem parseScopeList_error (dsc : Char) (claims : List JSValue)
    (v : JSValue) (hv : v ∈ claims) (hbad : badGrantedElem dsc v = true) :
    parseScopeList dsc claims =
      .error (internalServerError "unsupported_permission_value") := by
  induction claims with
  | nil => cases hv
  | cons b rest ih =>
    rcases List.mem_cons.mp hv with hb | hb
    · subst hb
      cases v with
      | str s =>
        simp only [badGrantedElem, Bool.not_eq_true'] at hbad
        simp [parseScopeList, hbad]
      | undefined => rfl
      | null => rfl
      | bool b => rfl
      | num n => rfl
      | arr elems => rfl
      | obj => rfl
    · cases b with
      | str s =>
        by_cases hs : grantedClaimRegexTest dsc s = true
        · simp [parseScopeList, hs, Except.map, ih hb]
        · simp only [Bool.not_eq_true] at hs
          simp [parseScopeList, hs]
      | undefined => rfl
      | null => rfl
      | bool c => rfl
      | num n => rfl
      | arr elems => rfl
      | obj => rfl

/-- C6: `parseGrantedScope` maps `undefined`, the empty string and the empty
array to the empty granted set without an error; a non-empty string is split
on the claim delimiter and then processed like an array of strings; and a
claim-list element that is not a string or fails the granted-side grammar
makes the whole parse fail with the non-exposed `InternalServerError`
(an `Except.error` carries nothing of the output). -/
theorem parseGrantedScope_spec :
    (∀ d dsc : Char,
      parseGrantedScope .undefined d dsc = .ok [] ∧
      parseGrantedScope (.str "") d dsc = .ok [] ∧
      parseGrantedScope (.arr []) d dsc = .ok []) ∧
    (∀ (d dsc : Char) (s : String), s ≠ "" →
      parseGrantedScope (.str s) d dsc =
        parseScopeList dsc ((jsSplit d s).map JSValue.str)) ∧
    (∀ (d dsc : Char) (elems : List JSValue) (v : JSValue),
      v ∈ elems → badGrantedElem dsc v = true →
      parseGrantedScope (.arr elems) d dsc =
        .error (internalServerError "unsupported_permission_value")) ∧
    (internalServerError "unsupported_permission_value").name =
      "InternalServerError" ∧
    (internalServerError "unsupported_permission_value").expose = some false := by
  refine ⟨fun d dsc => ⟨rfl, rfl, rfl⟩, ?_, ?_, rfl, rfl⟩
  · intro d dsc s hs
    simp [parseGrantedScope, hs]
  · intro d dsc elems v hv hbad
    simpa [parseGrantedScope] using parseScopeList_error dsc elems v hv hbad

/-- C6 witness. -/
theorem parseGrantedScope_spec_witness :
    (("read,write" : String) ≠ "" ∧
      parseGrantedScope (.str "read,write") ',' ':' =
        parseScopeList ':' ((jsSplit ',' "read,write").map JSValue.str)) ∧
    (JSValue.num 1 ∈ [JSValue.num 1] ∧ badGrantedElem ':' (.num 1) = true ∧
      parseGrantedScope (.arr [.num 1]) ',' ':' =
        .error (internalServerError "unsupported_permission_value")) :=
  ⟨⟨by decide, parseGrantedScope_spec.2.1 ',' ':' "read,write" (by decide)⟩,
    ⟨List.mem_cons_self _ _, rfl,
      parseGrantedScope_spec.2.2.1 ',' ':' [.num 1] (.num 1)
        (List.mem_cons_self _ _) rfl⟩⟩
end ExpressJwtScope

namespace ExpressJwtScope

/-- C7: `moduleArgv` fails exactly when a supplied delimiter violates its
charset rule or the two (defaulted) delimiters are equal: a delimiter must be
one character of the allowed punctuation class — which contains neither
underscore nor `*` — with a space additionally accepted for the claim
delimiter but not for the claim-scope delimiter; and the failure is always an
`ExpressJwtScopeError` (the model of the spec's ConfigError). -/
theorem moduleArgv_delimiters :
    (∀ cd csd : Option String,
      exceptIsError (moduleArgv cd csd) = true ↔
        ((strTruthy cd = true ∧ validClaimDelimiter (cd.getD "") = false) ∨
          (strTruthy csd = true ∧
            validClaimScopeDelimiter (csd.getD "") = false) ∨
          (if strTruthy cd then cd.getD "" else ",") =
            (if strTruthy csd then csd.getD "" else ":"))) ∧
    (∀ (cd csd : Option String) (e : JsError),
      moduleArgv cd csd = .error e → e.name = "ExpressJwtScopeError") ∧
    validClaimDelimiter " " = true ∧
    validClaimScopeDelimiter " " = false ∧
    validClaimDelimiter "_" = false ∧
    validClaimScopeDelimiter "_" = false ∧
    validClaimDelimiter "*" = false ∧
    validClaimScopeDelimiter "*" = false ∧
    (∀ s : String, validClaimDelimiter s = true → s.length = 1) ∧
    (∀ s : String, validClaimScopeDelimiter s = true → s.length = 1) := by
  refine ⟨?_, ?_, by decide, by decide, by decide, by decide, by decide,
    by decide, ?_, ?_⟩
  · intro cd csd
    by_cases h1 : (strTruthy cd && !validClaimDelimiter (cd.getD "")) = true
    · have ha : strTruthy cd = true ∧
          validClaimDelimiter (cd.getD "") = false := by
        simpa using h1
      simp [moduleArgv, h1, exceptIsError, ha.1, ha.2]
    · by_cases h2 :
          (strTruthy csd && !validClaimScopeDelimiter (csd.getD "")) = true
      · have ha : strTruthy csd = true ∧
            validClaimScopeDelimiter (csd.getD "") = false := by
          simpa using h2
        simp [moduleArgv, h1, h2, exceptIsError, ha.1, ha.2]
      · have h1' : ¬(strTruthy cd = true ∧
            validClaimDelimiter (cd.getD "") = false) := by
          simpa [Bool.and_eq_true, Bool.not_eq_true'] using h1
        have h2' : ¬(strTruthy csd = true ∧
            validClaimScopeDelimiter (csd.getD "") = false) := by
          simpa [Bool.and_eq_true, Bool.not_eq_true'] using h2
        by_cases h3 : (if strTruthy cd then cd.getD "" else ",") =
            (if strTruthy csd then csd.getD "" else ":")
        · simp [moduleArgv, h1, h2, h3, exceptIsError]
        · simp [moduleArgv, h1, h2, h3, exceptIsError, h1', h2']
  · intro cd csd e h
    by_cases h1 : (strTruthy cd && !validClaimDelimiter (cd.getD "")) = true
    · simp only [moduleArgv, h1, if_true] at h
      cases h
      rfl
    · by_cases h2 :
          (strTruthy csd && !validClaimScopeDelimiter (csd.getD "")) = true
      · simp only [moduleArgv, h1, Bool.false_eq_true, if_false, h2,
          if_true] at h
        cases h
        rfl
      · by_cases h3 : ((if strTruthy cd then cd.getD "" else ",") ==
            (if strTruthy csd then csd.getD "" else ":")) = true
        · simp only [moduleArgv, h1, Bool.false_eq_true, if_false, h2,
            h3, if_true] at h
          cases h
          rfl
        · simp only [moduleArgv, h1, Bool.false_eq_true, if_false, h2,
            h3, if_true] at h
          cases h
  · intro s h
    have hv : validDelimiter s = true := by
      simp only [validClaimDelimiter, Bool.and_eq_true] at h
      exact h.1
    simpa [validDelimiter] using hv
  · intro s h
    have hv : validDelimiter s = true := by
      simp only [validClaimScopeDelimiter, Bool.and_eq_true] at h
      exact h.1
    simpa [validDelimiter] using hv

/-- C7 witness. -/
theorem moduleArgv_delimiters_witness :
    (exceptIsError (moduleArgv (some "_") (some ":")) = true ↔
      ((strTruthy (some "_") = true ∧
          validClaimDelimiter ((some "_").getD "") = false) ∨
        (strTruthy (some ":") = true ∧
          validClaimScopeDelimiter ((some ":").getD "") = false) ∨
        (if strTruthy (some "_") then (some "_").getD "" else ",") =
          (if strTruthy (some ":") then (some ":").getD "" else ":"))) ∧
    validClaimDelimiter "," = true ∧ ("," : String).length = 1 :=
  ⟨(moduleArgv_delimiters.1 (some "_") (some ":")),
    by decide, moduleArgv_delimiters.2.2.2.2.2.2.2.2.1 "," (by decide)⟩

/-- C9: the released middleware's token fetch (spec-modelled, see
`fetchToken`): when the access token is absent and credentials are required
it fails with `UnauthorizedError`, which is exposed (client-facing) with
status 401 — not the non-exposed server-class `InternalServerError` that the
earlier versions under `src/` throw. -/
theorem missing_token_unauthorized (tok : JSValue) (h : truthy tok = false) :
    fetchToken tok true =
      .error (unauthorizedError "authorization_token_not_found") ∧
    (unauthorizedError "authorization_token_not_found").expose = some true ∧
    (unauthorizedError "authorization_token_not_found").status = some 401 ∧
    (unauthorizedError "authorization_token_not_found").name ≠
      (internalServerError "token_not_found").name ∧
    (unauthorizedError "authorization_token_not_found").status ≠
      (internalServerError "token_not_found").status := by
  refine ⟨by simp [fetchToken, h], rfl, rfl, by decide, by decide⟩

/-- C9 witness. -/
theorem missing_token_unauthorized_witness :
    truthy .undefined = false ∧
    fetchToken .undefined true =
      .error (unauthorizedError "authorization_token_not_found") :=
  ⟨rfl, (missing_token_unauthorized .undefined rfl).1⟩
end ExpressJwtScope
